import Mathlib

/-!
Verification of the sprite/asset loading subsystem of `space-invaders-js-v89`.

The subsystem has two near-duplicate implementations:

* `AssetLoader` (the asset-loader segment of `src/src/index.js`): a cache
  map, an in-flight `loading` map, URL validation, a timeout raced against
  the load promise, and a size check that drops the first-inserted key.
* `SpriteManager` (`src/unnamed/part_000`): a sprite cache with `lastUsed`
  timestamps and least-recently-used eviction, a `#loadingPromises` map,
  URL validation, and a per-attempt timeout cleared on image settlement.

Both are single-threaded and event-driven: the only suspension points are
the image callbacks (`onload`/`onerror`) and the timeout timers.  We embed
each class as a state machine whose events are the synchronous blocks the
browser scheduler can run: a `loadSprite` call (its whole synchronous
prefix), an image settling, or a timer firing.  Promise identity is
modelled by attempt indices; the `fetches` and `rets` fields are pure
observation logs (appended to, never read by the transitions) recording
`img.src = url` assignments and what each call returned.
-/

namespace Spec2Proof

/-! ### Insertion-ordered maps

JavaScript `Map` iterates in insertion order; `set` on an existing key
keeps its position, `delete` removes the entry.  We model a `Map` as an
association list in insertion order. -/

/-- Models `m.get(k)` on a JS `Map`. -/
def jget (m : List (String × α)) (k : String) : Option α :=
  match m.find? (fun p => p.1 == k) with
  | some p => some p.2
  | none => none

/-- Models `m.has(k)` on a JS `Map`. -/
def jhas (m : List (String × α)) (k : String) : Bool :=
  m.any (fun p => p.1 == k)

/-- Models `m.set(k, v)` on a JS `Map`: replaces in place when the key is
present, otherwise appends at the end. -/
def jset (m : List (String × α)) (k : String) (v : α) : List (String × α) :=
  if jhas m k then m.map (fun p => if p.1 == k then (k, v) else p)
  else m ++ [(k, v)]

/-- Models `m.delete(k)` on a JS `Map`. -/
def jdel (m : List (String × α)) (k : String) : List (String × α) :=
  m.filter (fun p => p.1 != k)

/-- Replace the element at index `n` by `f` of it (no-op out of range). -/
def modifyAt (l : List α) (n : Nat) (f : α → α) : List α :=
  match l, n with
  | [], _ => []
  | x :: xs, 0 => f x :: xs
  | x :: xs, Nat.succ n => x :: modifyAt xs n f

/-! ### JavaScript string helpers

Both validators compute `url.split('.').pop().toLowerCase()`. -/

/-- Models JS `s.split('.')` on the underlying character list: splits at
every dot, keeping empty segments, and yields one (possibly empty) segment
even for the empty string. -/
def splitDots : List Char → List (List Char)
  | [] => [[]]
  | c :: cs =>
    if c = '.' then [] :: splitDots cs
    else
      match splitDots cs with
      | [] => [[c]]
      | s :: ss => (c :: s) :: ss

/-- Models JS `toLowerCase` on the characters occurring in asset keys
(ASCII): lowercases every character. -/
def jsLower (s : String) : String := ⟨s.data.map Char.toLower⟩

/-- Models `url.split('.').pop().toLowerCase()` as used by both
validators: the segment after the last dot, lowercased (for a dot-free
string this is the whole string). -/
def jsExtension (s : String) : String :=
  jsLower ⟨(splitDots s.data).getLastD []⟩

/-! ### The `AssetLoader` class (asset-loader segment of `src/src/index.js`) -/

namespace AssetLoader

/-- Source constant `CONFIG.SUPPORTED_FORMATS`. -/
def SUPPORTED_FORMATS : List String := ["png", "jpg", "jpeg", "webp", "svg"]

/-- Source constant `CONFIG.MAX_CACHE_SIZE`. -/
def MAX_CACHE_SIZE : Nat := 100

/-- Models the constructor's `options.x || CONFIG.X` pattern: `0` and a
missing option are falsy, so they fall back to the default. -/
def orDefaultNat (o : Option Nat) (d : Nat) : Nat :=
  match o with
  | some n => if n = 0 then d else n
  | none => d

/-- Instance options fixed by the constructor. -/
structure Config where
  maxCacheSize : Nat
  supportedFormats : List String
  deriving DecidableEq

/-- Models the constructor's option handling for the fields relevant here
(the timeout duration never influences which races are possible, only when
they happen in real time, so it is not part of the model state). -/
def mkConfig (sz : Option Nat) (fmts : Option (List String)) : Config :=
  ⟨orDefaultNat sz MAX_CACHE_SIZE, fmts.getD SUPPORTED_FORMATS⟩

/-- The default configuration (`new AssetLoader()`). -/
def defaultConfig : Config := mkConfig none none

/-- Settlement of a future in the `AssetLoader` model. -/
inductive Outcome
  | resolved (img : Nat)
  | invalidKey
  | loadFailed
  | timedOut
  deriving DecidableEq

/-- What a `loadSprite` call returned to its caller. -/
inductive Ret
  | hit (img : Nat)
  | joined (a : Nat)
  | raced (a : Nat)
  | invalid
  deriving DecidableEq

/-- One load attempt: the `loadPromise` created for a fresh url together
with the race of it against the initiating caller's timeout promise. -/
structure Attempt where
  url : String
  imgSettled : Option Outcome
  raceSettled : Option Outcome
  deriving DecidableEq

/-- The instance state, plus the observation logs `fetches` and `rets`. -/
structure State where
  cache : List (String × Nat)
  loading : List (String × Nat)
  attempts : List Attempt
  fetches : List String
  rets : List Ret
  deriving DecidableEq

/-- A freshly constructed loader: both maps empty. -/
def State.init : State := ⟨[], [], [], [], []⟩

/-- Models `_validateAssetUrl`; `none` is a non-string argument such as
`null`, and the result is `true` exactly when the method does not throw. -/
def validateAssetUrl (cfg : Config) (url : Option String) : Bool :=
  match url with
  | none => false
  | some u =>
    if u = "" then false
    else cfg.supportedFormats.contains (jsExtension u)

/-- Models `_manageCacheSize`: when over capacity, delete the
first-inserted key of the cache map. -/
def manageCacheSize (maxSize : Nat) (cache : List (String × Nat)) :
    List (String × Nat) :=
  if maxSize < cache.length then
    match cache with
    | [] => []
    | p :: _ => jdel cache p.1
  else cache

/-- Scheduler events for an `AssetLoader` instance. -/
inductive Ev
  | call (url : Option String)
  | onload (a : Nat) (img : Nat)
  | onerror (a : Nat)
  | timer (a : Nat)
  deriving DecidableEq

/-- The synchronous body of `loadSprite` (everything up to its single
`await`): validation, the cache fast path, the in-flight fast path, and
otherwise the creation of the load promise (whose executor assigns
`img.src`, the fetch), the timeout promise, and the `loading` entry. -/
def loadSprite (cfg : Config) (s : State) : Option String → State
  | none => { s with rets := s.rets ++ [Ret.invalid] }
  | some u =>
    if validateAssetUrl cfg (some u) = false then
      { s with rets := s.rets ++ [Ret.invalid] }
    else
      match jget s.cache u with
      | some img => { s with rets := s.rets ++ [Ret.hit img] }
      | none =>
        match jget s.loading u with
        | some a => { s with rets := s.rets ++ [Ret.joined a] }
        | none =>
          { s with
            fetches := s.fetches ++ [u]
            attempts := s.attempts ++ [⟨u, none, none⟩]
            loading := jset s.loading u s.attempts.length
            rets := s.rets ++ [Ret.raced s.attempts.length] }

/-- Models `getSprite`, which delegates unconditionally to `loadSprite`. -/
def getSprite (cfg : Config) (s : State) (url : Option String) : State :=
  loadSprite cfg s url

/-- Models the `img.onload` callback of attempt `a`: insert into the cache,
delete the `loading` entry for the url, run the size check, and resolve
`loadPromise` (which settles the race if the timer has not already). -/
def onload (cfg : Config) (s : State) (a : Nat) (img : Nat) : State :=
  match s.attempts[a]? with
  | some att =>
    if att.imgSettled = none then
      { s with
        cache := manageCacheSize cfg.maxCacheSize (jset s.cache att.url img)
        loading := jdel s.loading att.url
        attempts := modifyAt s.attempts a (fun t =>
          { t with imgSettled := some (Outcome.resolved img)
                   raceSettled := some (t.raceSettled.getD (Outcome.resolved img)) }) }
    else s
  | none => s

/-- Models the `img.onerror` callback of attempt `a`: delete the `loading`
entry and reject `loadPromise`. -/
def onerror (s : State) (a : Nat) : State :=
  match s.attempts[a]? with
  | some att =>
    if att.imgSettled = none then
      { s with
        loading := jdel s.loading att.url
        attempts := modifyAt s.attempts a (fun t =>
          { t with imgSettled := some Outcome.loadFailed
                   raceSettled := some (t.raceSettled.getD Outcome.loadFailed) }) }
    else s
  | none => s

/-- Models the timeout timer created alongside attempt `a` firing: it
rejects only the race promise; neither map is touched. -/
def timer (s : State) (a : Nat) : State :=
  { s with attempts := modifyAt s.attempts a (fun t =>
      { t with raceSettled := some (t.raceSettled.getD Outcome.timedOut) }) }

/-- One scheduler event. -/
def step (cfg : Config) (s : State) : Ev → State
  | Ev.call url => loadSprite cfg s url
  | Ev.onload a img => onload cfg s a img
  | Ev.onerror a => onerror s a
  | Ev.timer a => timer s a

/-- Run a trace of events from a given state. -/
def run (cfg : Config) (s : State) (tr : List Ev) : State :=
  tr.foldl (step cfg) s

/-- The settlement, if any, of the future a given call returned: a cache
hit resolves immediately, a validation error rejects immediately, a joined
caller holds `loadPromise` itself, the initiating caller holds the race of
`loadPromise` with its timeout. -/
def callerOutcome (s : State) : Ret → Option Outcome
  | Ret.hit img => some (Outcome.resolved img)
  | Ret.invalid => some Outcome.invalidKey
  | Ret.joined a => (s.attempts[a]?).bind (fun t => t.imgSettled)
  | Ret.raced a => (s.attempts[a]?).bind (fun t => t.raceSettled)

/-- The synchronous phase of `preloadSprites`:
`urls.map(url => this.loadSprite(url))` runs each call body in order. -/
def preloadSprites (cfg : Config) (s : State) (urls : List String) : State :=
  urls.foldl (fun s u => loadSprite cfg s (some u)) s

/-- Settlement of the future `preloadSprites` returns. -/
inductive PreloadOutcome
  | ok (imgs : List Nat)
  | failed
  deriving DecidableEq

/-- Whether an observed settlement is a resolution. -/
def isResolved : Option Outcome → Bool
  | some (Outcome.resolved _) => true
  | _ => false

/-- Whether an observed settlement is a rejection. -/
def isRejected : Option Outcome → Bool
  | some (Outcome.resolved _) => false
  | some _ => true
  | none => false

/-- The images of the calls that resolved, in input order. -/
def resolvedImgs (s : State) (rs : List Ret) : List Nat :=
  rs.filterMap (fun r =>
    match callerOutcome s r with
    | some (Outcome.resolved img) => some img
    | _ => none)

/-- Models `Promise.all(...)` under the surrounding `try`/`catch`: if any
of the per-url futures rejects the whole call rejects with the single
aggregate `AssetLoadError('Failed to preload sprites')`; if all resolve it
resolves with the images in input order; otherwise it is still pending. -/
def preloadOutcome (s : State) (rs : List Ret) : Option PreloadOutcome :=
  if rs.any (fun r => isRejected (callerOutcome s r)) then
    some PreloadOutcome.failed
  else if rs.all (fun r => isResolved (callerOutcome s r)) then
    some (PreloadOutcome.ok (resolvedImgs s rs))
  else none

end AssetLoader

/-! ### The `SpriteManager` class (`src/unnamed/part_000`) -/

namespace SpriteManager

/-- Source constant `CONFIG.SUPPORTED_FORMATS` (no `svg` here). -/
def SUPPORTED_FORMATS : List String := ["png", "jpg", "jpeg", "webp"]

/-- Source constant `CONFIG.MAX_CACHE_SIZE`. -/
def MAX_CACHE_SIZE : Nat := 100

/-- Models `options.maxCacheSize || CONFIG.MAX_CACHE_SIZE` in the
constructor (`0` and a missing option are falsy). -/
def mkMaxCacheSize (o : Option Nat) : Nat :=
  match o with
  | some n => if n = 0 then MAX_CACHE_SIZE else n
  | none => MAX_CACHE_SIZE

/-- The value `#loadSpriteInternal` resolves with. -/
structure Sprite where
  image : Nat
  id : String
  lastUsed : Nat
  deriving DecidableEq

/-- Settlement of a future in the `SpriteManager` model. -/
inductive Outcome
  | resolved (sp : Sprite)
  | invalidUrl
  | loadFailed
  | timedOut
  deriving DecidableEq

/-- What a `loadSprite` call returned to its caller. -/
inductive Ret
  | hit (sp : Sprite)
  | joined (a : Nat)
  | initiated (a : Nat)
  | invalid
  deriving DecidableEq

/-- One `#loadSpriteInternal` promise.  `cacheOpt` records the initiating
call's `options.cache !== false`; `settled` is decided by the first of the
timeout timer, `image.onload` and `image.onerror` (the `clearTimeout` in
the image callbacks and the once-only settlement of a promise make every
later one of those events a no-op). -/
structure Attempt where
  url : String
  cacheOpt : Bool
  settled : Option Outcome
  deriving DecidableEq

/-- The instance state, plus the observation logs `fetches` and `rets`. -/
structure State where
  spriteCache : List (String × Sprite)
  loadingPromises : List (String × Nat)
  attempts : List Attempt
  fetches : List String
  rets : List Ret
  deriving DecidableEq

/-- A freshly constructed manager. -/
def State.init : State := ⟨[], [], [], [], []⟩

/-- Models `#validateUrl`; `none` is a non-string argument, and the result
is `true` exactly when the method does not throw. -/
def validateUrl (url : Option String) : Bool :=
  match url with
  | none => false
  | some u =>
    if u = "" then false
    else SUPPORTED_FORMATS.contains (jsExtension u)

/-- One iteration step of the oldest-entry scan in `#addToCache`: starting
from `oldestTime = Infinity`, keep the entry with strictly smaller
`lastUsed`, so the first entry always replaces the initial state and the
earliest minimum wins ties. -/
def oldestStep (acc : Option (String × Sprite)) (p : String × Sprite) :
    Option (String × Sprite) :=
  match acc with
  | none => some p
  | some q => if p.2.lastUsed < q.2.lastUsed then some p else some q

/-- The oldest-entry scan of `#addToCache` over the cache map in iteration
(insertion) order. -/
def findOldest (cache : List (String × Sprite)) : Option String :=
  (cache.foldl oldestStep none).map Prod.fst

/-- Models `#addToCache`: when at or over capacity, delete the entry with
the smallest `lastUsed` (if the scan found one), then insert. -/
def addToCache (maxSize : Nat) (cache : List (String × Sprite))
    (url : String) (sp : Sprite) : List (String × Sprite) :=
  jset
    (if maxSize ≤ cache.length then
      match findOldest cache with
      | some oldestUrl => jdel cache oldestUrl
      | none => cache
    else cache) url sp

/-- Scheduler events for a `SpriteManager` instance.  A call carries the
current `Date.now()` and the caller's `options.cache !== false`; `onload`
carries the decoded image handle and the `Date.now()` of the resolution. -/
inductive Ev
  | call (url : Option String) (cacheOpt : Bool) (now : Nat)
  | onload (a : Nat) (img : Nat) (now : Nat)
  | onerror (a : Nat)
  | timer (a : Nat)
  deriving DecidableEq

/-- The synchronous body of `loadSprite` (everything up to its single
`await`): validation, the cache fast path (skipped when
`options.cache === false`) which also refreshes `lastUsed` on the cached
sprite object, the in-flight fast path, and otherwise the creation of the
internal promise (whose executor starts the timer and assigns `image.src`,
the fetch) and the `#loadingPromises` entry. -/
def loadSprite (s : State) (cacheOpt : Bool) (now : Nat) :
    Option String → State
  | none => { s with rets := s.rets ++ [Ret.invalid] }
  | some u =>
    if validateUrl (some u) = false then
      { s with rets := s.rets ++ [Ret.invalid] }
    else
      match (if cacheOpt then jget s.spriteCache u else none) with
      | some sp =>
        { s with
          spriteCache := jset s.spriteCache u { sp with lastUsed := now }
          rets := s.rets ++ [Ret.hit { sp with lastUsed := now }] }
      | none =>
        match jget s.loadingPromises u with
        | some a => { s with rets := s.rets ++ [Ret.joined a] }
        | none =>
          { s with
            fetches := s.fetches ++ [u]
            attempts := s.attempts ++ [⟨u, cacheOpt, none⟩]
            loadingPromises := jset s.loadingPromises u s.attempts.length
            rets := s.rets ++ [Ret.initiated s.attempts.length] }

/-- Models `image.onload` of attempt `a` together with the initiating
call's continuation after its `await` (which runs before any other
scheduled event): if the promise is still pending it resolves with a fresh
sprite, the continuation deletes the `#loadingPromises` entry and, only
when the initiating call had caching enabled, runs `#addToCache`.  If the
promise already settled (timeout or error came first) the `resolve` is a
no-op: nothing at all changes. -/
def onload (maxSize : Nat) (s : State) (a : Nat) (img : Nat) (now : Nat) :
    State :=
  match s.attempts[a]? with
  | some att =>
    if att.settled = none then
      { s with
        attempts := modifyAt s.attempts a (fun t =>
          { t with settled := some (Outcome.resolved ⟨img, att.url, now⟩) })
        loadingPromises := jdel s.loadingPromises att.url
        spriteCache :=
          if att.cacheOpt then
            addToCache maxSize s.spriteCache att.url ⟨img, att.url, now⟩
          else s.spriteCache }
    else s
  | none => s

/-- Models `image.onerror` of attempt `a` together with the initiating
call's `catch` (which only notifies error handlers and rethrows): the
promise rejects, and neither map changes. -/
def onerror (s : State) (a : Nat) : State :=
  match s.attempts[a]? with
  | some att =>
    if att.settled = none then
      { s with attempts := modifyAt s.attempts a (fun t =>
          { t with settled := some Outcome.loadFailed }) }
    else s
  | none => s

/-- Models the timeout timer of attempt `a` firing (possible only while
the image has not settled, since the callbacks `clearTimeout`): the
promise rejects with the timeout error; the `catch` of the initiating call
rethrows without touching either map. -/
def timer (s : State) (a : Nat) : State :=
  match s.attempts[a]? with
  | some att =>
    if att.settled = none then
      { s with attempts := modifyAt s.attempts a (fun t =>
          { t with settled := some Outcome.timedOut }) }
    else s
  | none => s

/-- One scheduler event. -/
def step (maxSize : Nat) (s : State) : Ev → State
  | Ev.call url cacheOpt now => loadSprite s cacheOpt now url
  | Ev.onload a img now => onload maxSize s a img now
  | Ev.onerror a => onerror s a
  | Ev.timer a => timer s a

/-- Run a trace of events from a given state. -/
def run (maxSize : Nat) (s : State) (tr : List Ev) : State :=
  tr.foldl (step maxSize) s

/-- The settlement, if any, of the future a given call returned: both the
initiating caller (whose `async` body forwards the internal promise's
settlement) and every joining caller (which gets the internal promise
itself) observe `settled`. -/
def callerOutcome (s : State) : Ret → Option Outcome
  | Ret.hit sp => some (Outcome.resolved sp)
  | Ret.invalid => some Outcome.invalidUrl
  | Ret.joined a => (s.attempts[a]?).bind (fun t => t.settled)
  | Ret.initiated a => (s.attempts[a]?).bind (fun t => t.settled)

end SpriteManager

end Spec2Proof

namespace Spec2Proof

/-! ### Concrete scenario states referenced by the claim analyses -/

namespace AssetLoader

/-- Load of `"a.png"` begun, then its timeout fires while the image is
still outstanding. -/
def timeoutState : State :=
  run defaultConfig State.init [Ev.call (some "a.png"), Ev.timer 0]

/-- Load of `"a.png"` begun, timeout fired, then the key is requested
again. -/
def staleRetryState : State :=
  run defaultConfig State.init
    [Ev.call (some "a.png"), Ev.timer 0, Ev.call (some "a.png")]

/-- An instance constructed with `maxCacheSize = 2`. -/
def config2 : Config := ⟨2, SUPPORTED_FORMATS⟩

/-- With capacity 2: load `"a.png"` and `"b.png"`, hit `"a.png"` from the
cache, then load `"c.png"` so that an eviction runs at its insertion. -/
def evictionState : State :=
  run config2 State.init
    [Ev.call (some "a.png"), Ev.onload 0 10, Ev.call (some "b.png"),
     Ev.onload 1 20, Ev.call (some "a.png"), Ev.call (some "c.png"),
     Ev.onload 2 30]

/-- The synchronous phase of `preloadSprites(["x.png", "b.bad"])` followed
by the success of the `"x.png"` image. -/
def preloadFailState : State :=
  run defaultConfig
    (preloadSprites defaultConfig State.init ["x.png", "b.bad"])
    [Ev.onload 0 5]

/-- The synchronous phase of `preloadSprites(["x.png", "y.png"])` followed
by the success of both images. -/
def preloadOkState : State :=
  run defaultConfig
    (preloadSprites defaultConfig State.init ["x.png", "y.png"])
    [Ev.onload 0 5, Ev.onload 1 6]

/-- A loader that has loaded and cached `"a.png"` with handle `7`. -/
def cachedState : State :=
  run defaultConfig State.init [Ev.call (some "a.png"), Ev.onload 0 7]

end AssetLoader

namespace SpriteManager

/-- Load of `"a.png"` begun, the image fails, then the key is requested
again. -/
def failRetryState : State :=
  run MAX_CACHE_SIZE State.init
    [Ev.call (some "a.png") true 0, Ev.onerror 0,
     Ev.call (some "a.png") true 1]

end SpriteManager

end Spec2Proof

namespace Spec2Proof

/-! ### Lemmas about the map operations and helpers -/

theorem jget_cons (p : String × α) (m : List (String × α)) (k : String) :
    jget (p :: m) k = if p.1 == k then some p.2 else jget m k := by
  cases hb : p.1 == k <;> simp [jget, List.find?, hb]

theorem jhas_cons (p : String × α) (m : List (String × α)) (k : String) :
    jhas (p :: m) k = (p.1 == k || jhas m k) := by
  simp [jhas]

theorem jget_mapset_self (m : List (String × α)) (k : String) (v : α)
    (h : jhas m k = true) :
    jget (m.map (fun p => if p.1 == k then (k, v) else p)) k = some v := by
  induction m with
  | nil => simp [jhas] at h
  | cons p m ih =>
    rw [jhas_cons] at h
    cases hb : p.1 == k
    · rw [hb] at h
      simp only [Bool.false_or] at h
      simp only [List.map_cons, hb]
      rw [if_neg (by simp), jget_cons, if_neg (by simp [hb])]
      exact ih h
    · have hp : p.1 = k := by simpa using hb
      simp [List.map_cons, hp, jget_cons]

theorem jget_append_self (m : List (String × α)) (k : String) (v : α)
    (h : jhas m k = false) : jget (m ++ [(k, v)]) k = some v := by
  induction m with
  | nil => simp [jget_cons]
  | cons p m ih =>
    rw [jhas_cons] at h
    cases hb : p.1 == k
    · rw [hb] at h
      simp only [Bool.false_or] at h
      rw [List.cons_append, jget_cons, if_neg (by simp [hb])]
      exact ih h
    · rw [hb] at h
      simp at h

theorem jget_jset_self (m : List (String × α)) (k : String) (v : α) :
    jget (jset m k v) k = some v := by
  unfold jset
  by_cases h : jhas m k = true
  · rw [if_pos h]
    exact jget_mapset_self m k v h
  · rw [if_neg h]
    exact jget_append_self m k v (by simpa using h)

theorem length_jset_of_not_has (m : List (String × α)) (k : String) (v : α)
    (h : jhas m k = false) : (jset m k v).length = m.length + 1 := by
  simp [jset, h]

theorem length_jset_le (m : List (String × α)) (k : String) (v : α) :
    (jset m k v).length ≤ m.length + 1 := by
  unfold jset
  by_cases h : jhas m k = true <;> simp [h]

theorem length_jdel_le (m : List (String × α)) (k : String) :
    (jdel m k).length ≤ m.length :=
  List.length_filter_le _ _

theorem length_jdel_lt (m : List (String × α)) (k : String)
    (h : jhas m k = true) : (jdel m k).length < m.length := by
  simp only [jhas, List.any_eq_true, beq_iff_eq] at h
  obtain ⟨p, hp, hk⟩ := h
  apply List.length_filter_lt_length_iff_exists.mpr
  exact ⟨p, hp, by simp [hk]⟩

theorem jhas_of_mem (m : List (String × α)) (k : String) (v : α)
    (h : (k, v) ∈ m) : jhas m k = true := by
  simp only [jhas, List.any_eq_true, beq_iff_eq]
  exact ⟨(k, v), h, rfl⟩

theorem getElem?_modifyAt (l : List α) (n m : Nat) (f : α → α) :
    (modifyAt l n f)[m]? = if m = n then (l[m]?).map f else l[m]? := by
  induction l generalizing n m with
  | nil => simp [modifyAt]
  | cons x xs ih =>
    cases n with
    | zero =>
      cases m with
      | zero => simp [modifyAt]
      | succ m => simp [modifyAt]
    | succ n =>
      cases m with
      | zero => simp [modifyAt]
      | succ m =>
        simp only [modifyAt, List.getElem?_cons_succ]
        rw [ih]
        simp [Nat.succ_inj]

theorem getElem?_modifyAt_self (l : List α) (n : Nat) (f : α → α) (x : α)
    (h : l[n]? = some x) : (modifyAt l n f)[n]? = some (f x) := by
  rw [getElem?_modifyAt, if_pos rfl, h]
  rfl

theorem getElem?_append_some' (l ext : List α) (n : Nat) (a : α)
    (h : l[n]? = some a) : (l ++ ext)[n]? = some a := by
  rw [List.getElem?_append_left (List.getElem?_eq_some.mp h).1]
  exact h

/-! ### Lemmas about the string helpers -/

theorem splitDots_no_dot (l : List Char) (h : '.' ∉ l) :
    splitDots l = [l] := by
  induction l with
  | nil => rfl
  | cons c cs ih =>
    simp only [List.mem_cons, not_or] at h
    rw [splitDots, if_neg (by exact fun hc => h.1 hc.symm)]
    rw [ih h.2]

theorem jsExtension_no_dot (s : String) (h : '.' ∉ s.data) :
    jsExtension s = jsLower s := by
  unfold jsExtension
  rw [splitDots_no_dot s.data h]
  rfl

end Spec2Proof

namespace Spec2Proof

/-! ### Structural lemmas about the AssetLoader step machine -/

namespace AssetLoader

theorem loadSprite_attempts_extends (cfg : Config) (s : State)
    (url : Option String) :
    ∃ ext, (loadSprite cfg s url).attempts = s.attempts ++ ext := by
  cases url with
  | none => exact ⟨[], by simp [loadSprite]⟩
  | some u =>
    simp only [loadSprite]
    by_cases hv : validateAssetUrl cfg (some u) = false
    · rw [if_pos hv]
      exact ⟨[], by simp⟩
    · rw [if_neg hv]
      cases hc : jget s.cache u with
      | some img => exact ⟨[], by simp⟩
      | none =>
        dsimp only
        cases hl : jget s.loading u with
        | some a => exact ⟨[], by simp⟩
        | none => exact ⟨[⟨u, none, none⟩], by simp⟩

theorem race_persists_step (cfg : Config) (s : State) (e : Ev) (a : Nat)
    (o : Outcome)
    (h : ∃ att, s.attempts[a]? = some att ∧ att.raceSettled = some o) :
    ∃ att, (step cfg s e).attempts[a]? = some att ∧
      att.raceSettled = some o := by
  obtain ⟨att, ha, ho⟩ := h
  cases e with
  | call url =>
    obtain ⟨ext, hext⟩ := loadSprite_attempts_extends cfg s url
    refine ⟨att, ?_, ho⟩
    simp only [step]
    rw [hext]
    exact getElem?_append_some' s.attempts ext a att ha
  | onload a' img =>
    simp only [step]
    unfold onload
    cases h' : s.attempts[a']? with
    | none => exact ⟨att, ha, ho⟩
    | some att' =>
      dsimp only
      by_cases hs : att'.imgSettled = none
      · rw [if_pos hs]
        by_cases haa : a = a'
        · subst haa
          rw [ha] at h'
          cases h'
          exact ⟨_, getElem?_modifyAt_self s.attempts a _ att ha, by simp [ho]⟩
        · refine ⟨att, ?_, ho⟩
          rw [getElem?_modifyAt, if_neg haa]
          exact ha
      · rw [if_neg hs]
        exact ⟨att, ha, ho⟩
  | onerror a' =>
    simp only [step]
    unfold onerror
    cases h' : s.attempts[a']? with
    | none => exact ⟨att, ha, ho⟩
    | some att' =>
      dsimp only
      by_cases hs : att'.imgSettled = none
      · rw [if_pos hs]
        by_cases haa : a = a'
        · subst haa
          rw [ha] at h'
          cases h'
          exact ⟨_, getElem?_modifyAt_self s.attempts a _ att ha, by simp [ho]⟩
        · refine ⟨att, ?_, ho⟩
          rw [getElem?_modifyAt, if_neg haa]
          exact ha
      · rw [if_neg hs]
        exact ⟨att, ha, ho⟩
  | timer a' =>
    simp only [step]
    unfold timer
    by_cases haa : a = a'
    · subst haa
      exact ⟨_, getElem?_modifyAt_self s.attempts a _ att ha, by simp [ho]⟩
    · refine ⟨att, ?_, ho⟩
      rw [getElem?_modifyAt, if_neg haa]
      exact ha

theorem race_persists_run (cfg : Config) (tr : List Ev) :
    ∀ (s : State) (a : Nat) (o : Outcome),
    (∃ att, s.attempts[a]? = some att ∧ att.raceSettled = some o) →
    ∃ att, (run cfg s tr).attempts[a]? = some att ∧
      att.raceSettled = some o := by
  induction tr with
  | nil => exact fun s a o h => h
  | cons e tr ih =>
    exact fun s a o h => ih _ a o (race_persists_step cfg s e a o h)

end AssetLoader

end Spec2Proof

namespace Spec2Proof

/-! ### Structural lemmas about the SpriteManager step machine -/

namespace SpriteManager

theorem smLoadSprite_attempts_extends (s : State) (cacheOpt : Bool) (now : Nat)
    (url : Option String) :
    ∃ ext, (loadSprite s cacheOpt now url).attempts = s.attempts ++ ext := by
  cases url with
  | none => exact ⟨[], by simp [loadSprite]⟩
  | some u =>
    simp only [loadSprite]
    by_cases hv : validateUrl (some u) = false
    · rw [if_pos hv]
      exact ⟨[], by simp⟩
    · rw [if_neg hv]
      cases hc : (if cacheOpt then jget s.spriteCache u else none) with
      | some sp => exact ⟨[], by simp⟩
      | none =>
        dsimp only
        cases hl : jget s.loadingPromises u with
        | some a => exact ⟨[], by simp⟩
        | none => exact ⟨[⟨u, cacheOpt, none⟩], by simp⟩

theorem settled_persists_step (maxSize : Nat) (s : State) (e : Ev) (a : Nat)
    (o : Outcome)
    (h : ∃ att, s.attempts[a]? = some att ∧ att.settled = some o) :
    ∃ att, (step maxSize s e).attempts[a]? = some att ∧
      att.settled = some o := by
  obtain ⟨att, ha, ho⟩ := h
  cases e with
  | call url cacheOpt now =>
    obtain ⟨ext, hext⟩ := smLoadSprite_attempts_extends s cacheOpt now url
    refine ⟨att, ?_, ho⟩
    simp only [step]
    rw [hext]
    exact getElem?_append_some' s.attempts ext a att ha
  | onload a' img now =>
    simp only [step]
    unfold onload
    cases h' : s.attempts[a']? with
    | none => exact ⟨att, ha, ho⟩
    | some att' =>
      dsimp only
      by_cases hs : att'.settled = none
      · rw [if_pos hs]
        by_cases haa : a = a'
        · subst haa
          rw [ha] at h'
          cases h'
          rw [ho] at hs
          cases hs
        · refine ⟨att, ?_, ho⟩
          rw [getElem?_modifyAt, if_neg haa]
          exact ha
      · rw [if_neg hs]
        exact ⟨att, ha, ho⟩
  | onerror a' =>
    simp only [step]
    unfold onerror
    cases h' : s.attempts[a']? with
    | none => exact ⟨att, ha, ho⟩
    | some att' =>
      dsimp only
      by_cases hs : att'.settled = none
      · rw [if_pos hs]
        by_cases haa : a = a'
        · subst haa
          rw [ha] at h'
          cases h'
          rw [ho] at hs
          cases hs
        · refine ⟨att, ?_, ho⟩
          rw [getElem?_modifyAt, if_neg haa]
          exact ha
      · rw [if_neg hs]
        exact ⟨att, ha, ho⟩
  | timer a' =>
    simp only [step]
    unfold timer
    cases h' : s.attempts[a']? with
    | none => exact ⟨att, ha, ho⟩
    | some att' =>
      dsimp only
      by_cases hs : att'.settled = none
      · rw [if_pos hs]
        by_cases haa : a = a'
        · subst haa
          rw [ha] at h'
          cases h'
          rw [ho] at hs
          cases hs
        · refine ⟨att, ?_, ho⟩
          rw [getElem?_modifyAt, if_neg haa]
          exact ha
      · rw [if_neg hs]
        exact ⟨att, ha, ho⟩

theorem settled_persists_run (maxSize : Nat) (tr : List Ev) :
    ∀ (s : State) (a : Nat) (o : Outcome),
    (∃ att, s.attempts[a]? = some att ∧ att.settled = some o) →
    ∃ att, (run maxSize s tr).attempts[a]? = some att ∧
      att.settled = some o := by
  induction tr with
  | nil => exact fun s a o h => h
  | cons e tr ih =>
    exact fun s a o h => ih _ a o (settled_persists_step maxSize s e a o h)

end SpriteManager

end Spec2Proof

namespace Spec2Proof

/-! ### Case lemmas for the synchronous bodies of the two loadSprite methods -/

namespace AssetLoader

theorem run_nil (cfg : Config) (s : State) : run cfg s [] = s := rfl

theorem run_cons (cfg : Config) (s : State) (e : Ev) (tr : List Ev) :
    run cfg s (e :: tr) = run cfg (step cfg s e) tr := rfl

theorem loadSprite_invalid (cfg : Config) (s : State) (url : Option String)
    (h : validateAssetUrl cfg url = false) :
    loadSprite cfg s url = { s with rets := s.rets ++ [Ret.invalid] } := by
  cases url with
  | none => simp [loadSprite]
  | some u =>
    simp only [loadSprite]
    rw [if_pos h]

theorem loadSprite_hit (cfg : Config) (s : State) (u : String) (img : Nat)
    (hv : validateAssetUrl cfg (some u) = true)
    (hc : jget s.cache u = some img) :
    loadSprite cfg s (some u) = { s with rets := s.rets ++ [Ret.hit img] } := by
  simp only [loadSprite]
  rw [if_neg (by simp [hv]), hc]

theorem loadSprite_join (cfg : Config) (s : State) (u : String) (a : Nat)
    (hv : validateAssetUrl cfg (some u) = true)
    (hc : jget s.cache u = none) (hl : jget s.loading u = some a) :
    loadSprite cfg s (some u) = { s with rets := s.rets ++ [Ret.joined a] } := by
  simp only [loadSprite]
  rw [if_neg (by simp [hv]), hc]
  dsimp only
  rw [hl]

theorem loadSprite_miss (cfg : Config) (s : State) (u : String)
    (hv : validateAssetUrl cfg (some u) = true)
    (hc : jget s.cache u = none) (hl : jget s.loading u = none) :
    loadSprite cfg s (some u) =
      { s with
        fetches := s.fetches ++ [u]
        attempts := s.attempts ++ [⟨u, none, none⟩]
        loading := jset s.loading u s.attempts.length
        rets := s.rets ++ [Ret.raced s.attempts.length] } := by
  simp only [loadSprite]
  rw [if_neg (by simp [hv]), hc]
  dsimp only
  rw [hl]

theorem joins_run (cfg : Config) (u : String) (a : Nat) (N : Nat) :
    ∀ s : State, validateAssetUrl cfg (some u) = true →
    jget s.cache u = none → jget s.loading u = some a →
    run cfg s (List.replicate N (Ev.call (some u))) =
      { s with rets := s.rets ++ List.replicate N (Ret.joined a) } := by
  induction N with
  | zero => intro s hv hc hl; simp [run]
  | succ N ih =>
    intro s hv hc hl
    rw [List.replicate_succ, run_cons]
    have hstep : step cfg s (Ev.call (some u)) =
        { s with rets := s.rets ++ [Ret.joined a] } := loadSprite_join cfg s u a hv hc hl
    rw [hstep, ih { s with rets := s.rets ++ [Ret.joined a] } hv hc hl]
    simp [List.replicate_succ]

end AssetLoader

namespace SpriteManager

theorem smRun_nil (maxSize : Nat) (s : State) : run maxSize s [] = s := rfl

theorem smRun_cons (maxSize : Nat) (s : State) (e : Ev) (tr : List Ev) :
    run maxSize s (e :: tr) = run maxSize (step maxSize s e) tr := rfl

theorem smLoadSprite_invalid (s : State) (cacheOpt : Bool) (now : Nat)
    (url : Option String) (h : validateUrl url = false) :
    loadSprite s cacheOpt now url =
      { s with rets := s.rets ++ [Ret.invalid] } := by
  cases url with
  | none => simp [loadSprite]
  | some u =>
    simp only [loadSprite]
    rw [if_pos h]

theorem smLoadSprite_hit (s : State) (now : Nat) (u : String) (sp : Sprite)
    (hv : validateUrl (some u) = true)
    (hc : jget s.spriteCache u = some sp) :
    loadSprite s true now (some u) =
      { s with
        spriteCache := jset s.spriteCache u { sp with lastUsed := now }
        rets := s.rets ++ [Ret.hit { sp with lastUsed := now }] } := by
  simp [loadSprite, hv, hc]

theorem smLoadSprite_join (s : State) (cacheOpt : Bool) (now : Nat) (u : String)
    (a : Nat) (hv : validateUrl (some u) = true)
    (hc : (if cacheOpt then jget s.spriteCache u else none) = none)
    (hl : jget s.loadingPromises u = some a) :
    loadSprite s cacheOpt now (some u) =
      { s with rets := s.rets ++ [Ret.joined a] } := by
  simp only [loadSprite]
  rw [if_neg (by simp [hv]), hc]
  dsimp only
  rw [hl]

theorem smLoadSprite_miss (s : State) (cacheOpt : Bool) (now : Nat) (u : String)
    (hv : validateUrl (some u) = true)
    (hc : (if cacheOpt then jget s.spriteCache u else none) = none)
    (hl : jget s.loadingPromises u = none) :
    loadSprite s cacheOpt now (some u) =
      { s with
        fetches := s.fetches ++ [u]
        attempts := s.attempts ++ [⟨u, cacheOpt, none⟩]
        loadingPromises := jset s.loadingPromises u s.attempts.length
        rets := s.rets ++ [Ret.initiated s.attempts.length] } := by
  simp only [loadSprite]
  rw [if_neg (by simp [hv]), hc]
  dsimp only
  rw [hl]

theorem smJoins_run (maxSize : Nat) (cacheOpt : Bool) (now : Nat) (u : String)
    (a : Nat) (N : Nat) :
    ∀ s : State, validateUrl (some u) = true →
    jget s.spriteCache u = none → jget s.loadingPromises u = some a →
    run maxSize s (List.replicate N (Ev.call (some u) cacheOpt now)) =
      { s with rets := s.rets ++ List.replicate N (Ret.joined a) } := by
  induction N with
  | zero => intro s hv hc hl; simp [run]
  | succ N ih =>
    intro s hv hc hl
    rw [List.replicate_succ, smRun_cons]
    have hstep : step maxSize s (Ev.call (some u) cacheOpt now) =
        { s with rets := s.rets ++ [Ret.joined a] } :=
      smLoadSprite_join s cacheOpt now u a hv (by cases cacheOpt <;> simp [hc]) hl
    rw [hstep, ih { s with rets := s.rets ++ [Ret.joined a] } hv hc hl]
    simp [List.replicate_succ]

end SpriteManager

end Spec2Proof

namespace Spec2Proof

/-! ### Lemmas about the eviction procedures -/

namespace AssetLoader

theorem manageCacheSize_bound (maxSize : Nat) (cache : List (String × Nat))
    (u : String) (img : Nat) (h : cache.length ≤ maxSize) :
    (manageCacheSize maxSize (jset cache u img)).length ≤ maxSize := by
  unfold manageCacheSize
  by_cases hlen : maxSize < (jset cache u img).length
  · rw [if_pos hlen]
    cases hc : jset cache u img with
    | nil =>
      rw [hc] at hlen
      simp at hlen
    | cons p rest =>
      dsimp only
      have h1 : jhas (p :: rest) p.1 = true := by
        rw [jhas_cons]
        simp
      have h2 := length_jdel_lt (p :: rest) p.1 h1
      have h3 := length_jset_le cache u img
      rw [hc] at h3
      omega
  · rw [if_neg hlen]
    omega

theorem manageCacheSize_evicts_first (maxSize : Nat) (p : String × Nat)
    (rest : List (String × Nat)) (h : maxSize < (p :: rest).length) :
    manageCacheSize maxSize (p :: rest) = jdel (p :: rest) p.1 := by
  unfold manageCacheSize
  rw [if_pos h]

end AssetLoader

namespace SpriteManager

theorem foldl_oldestStep_isSome (l : List (String × Sprite)) :
    ∀ q : String × Sprite, ∃ p, l.foldl oldestStep (some q) = some p := by
  induction l with
  | nil => exact fun q => ⟨q, rfl⟩
  | cons x xs ih =>
    intro q
    rw [List.foldl_cons]
    unfold oldestStep
    dsimp only
    by_cases hx : x.2.lastUsed < q.2.lastUsed
    · rw [if_pos hx]
      exact ih x
    · rw [if_neg hx]
      exact ih q

theorem foldl_oldestStep_min (l : List (String × Sprite)) :
    ∀ (acc : Option (String × Sprite)) (p : String × Sprite),
    l.foldl oldestStep acc = some p →
    (acc = some p ∨ p ∈ l) ∧
    (∀ q ∈ l, p.2.lastUsed ≤ q.2.lastUsed) ∧
    (∀ q, acc = some q → p.2.lastUsed ≤ q.2.lastUsed) := by
  induction l with
  | nil =>
    intro acc p h
    refine ⟨Or.inl h, by simp, fun q hq => ?_⟩
    rw [List.foldl_nil] at h
    rw [h] at hq
    cases hq
    exact le_refl _
  | cons x xs ih =>
    intro acc p h
    rw [List.foldl_cons] at h
    obtain ⟨hmem, hall, hacc⟩ := ih (oldestStep acc x) p h
    have hr : ∃ r, oldestStep acc x = some r ∧
        r.2.lastUsed ≤ x.2.lastUsed ∧
        (∀ q, acc = some q → r.2.lastUsed ≤ q.2.lastUsed) ∧
        (oldestStep acc x = acc ∨ r = x) := by
      cases acc with
      | none => exact ⟨x, rfl, le_refl _, by simp, Or.inr rfl⟩
      | some q =>
        unfold oldestStep
        dsimp only
        by_cases hx : x.2.lastUsed < q.2.lastUsed
        · rw [if_pos hx]
          refine ⟨x, rfl, le_refl _, fun q' hq' => ?_, Or.inr rfl⟩
          cases hq'
          exact le_of_lt hx
        · rw [if_neg hx]
          refine ⟨q, rfl, le_of_not_lt hx, fun q' hq' => ?_, Or.inl rfl⟩
          cases hq'
          exact le_refl _
    obtain ⟨r, hr1, hr2, hr3, hr4⟩ := hr
    have hpr : p.2.lastUsed ≤ r.2.lastUsed := hacc r hr1
    refine ⟨?_, ?_, ?_⟩
    · rcases hmem with hm | hm
      · rw [hr1] at hm
        cases hm
        rcases hr4 with h4 | h4
        · rw [hr1] at h4
          exact Or.inl h4.symm
        · rw [h4]
          exact Or.inr (List.mem_cons_self x xs)
      · exact Or.inr (List.mem_cons_of_mem x hm)
    · intro q hq
      rcases List.mem_cons.mp hq with h' | h'
      · rw [h']
        exact le_trans hpr hr2
      · exact hall q h'
    · intro q hq
      exact le_trans hpr (hr3 q hq)

theorem findOldest_isSome (x : String × Sprite) (xs : List (String × Sprite)) :
    ∃ k, findOldest (x :: xs) = some k := by
  unfold findOldest
  rw [List.foldl_cons]
  obtain ⟨p, hp⟩ := foldl_oldestStep_isSome xs x
  exact ⟨p.1, by rw [show oldestStep none x = some x from rfl, hp]; rfl⟩

theorem findOldest_spec (cache : List (String × Sprite)) (k : String)
    (h : findOldest cache = some k) :
    ∃ sp, (k, sp) ∈ cache ∧ ∀ q ∈ cache, sp.lastUsed ≤ q.2.lastUsed := by
  unfold findOldest at h
  cases hf : cache.foldl oldestStep none with
  | none =>
    rw [hf] at h
    cases h
  | some p =>
    rw [hf] at h
    have hk : p.1 = k := by
      simpa using h
    obtain ⟨hmem, hall, -⟩ := foldl_oldestStep_min cache none p hf
    rcases hmem with hm | hm
    · cases hm
    · refine ⟨p.2, ?_, hall⟩
      rw [← hk]
      simpa using hm

theorem addToCache_bound (maxSize : Nat) (cache : List (String × Sprite))
    (u : String) (sp : Sprite) (hmax : 1 ≤ maxSize)
    (h : cache.length ≤ maxSize) :
    (addToCache maxSize cache u sp).length ≤ maxSize := by
  unfold addToCache
  by_cases hlen : maxSize ≤ cache.length
  · rw [if_pos hlen]
    have hcache : cache.length = maxSize := le_antisymm h hlen
    cases hc : cache with
    | nil =>
      rw [hc] at hcache
      simp at hcache
      omega
    | cons x xs =>
      obtain ⟨k, hk⟩ := findOldest_isSome x xs
      rw [hk]
      dsimp only
      obtain ⟨sp', hmem, -⟩ := findOldest_spec (x :: xs) k hk
      have h1 : jhas (x :: xs) k = true := jhas_of_mem _ k sp' hmem
      have h2 := length_jdel_lt (x :: xs) k h1
      have h3 := length_jset_le (jdel (x :: xs) k) u sp
      rw [hc] at hcache
      omega
  · rw [if_neg hlen]
    have h3 := length_jset_le cache u sp
    omega

end SpriteManager

end Spec2Proof

namespace Spec2Proof

/-! ### Lemmas about preloadSprites -/

namespace AssetLoader

theorem loadSprite_rets_extends (cfg : Config) (s : State)
    (url : Option String) :
    ∃ r, (loadSprite cfg s url).rets = s.rets ++ [r] := by
  cases url with
  | none => exact ⟨Ret.invalid, by simp [loadSprite]⟩
  | some u =>
    simp only [loadSprite]
    by_cases hv : validateAssetUrl cfg (some u) = false
    · rw [if_pos hv]
      exact ⟨Ret.invalid, by simp⟩
    · rw [if_neg hv]
      cases hc : jget s.cache u with
      | some img => exact ⟨Ret.hit img, by simp⟩
      | none =>
        dsimp only
        cases hl : jget s.loading u with
        | some a => exact ⟨Ret.joined a, by simp⟩
        | none => exact ⟨Ret.raced s.attempts.length, by simp⟩

theorem preloadSprites_rets_length (cfg : Config) (urls : List String) :
    ∀ s : State,
    (preloadSprites cfg s urls).rets.length = s.rets.length + urls.length := by
  induction urls with
  | nil => intro s; simp [preloadSprites]
  | cons u urls ih =>
    intro s
    show (preloadSprites cfg (loadSprite cfg s (some u)) urls).rets.length = _
    rw [ih]
    obtain ⟨r, hr⟩ := loadSprite_rets_extends cfg s (some u)
    rw [hr]
    simp
    omega

theorem isRejected_eq_false (o : Option Outcome) (h : isResolved o = true) :
    isRejected o = false := by
  cases o with
  | none => rfl
  | some oc => cases oc <;> simp_all [isResolved, isRejected]

theorem preloadOutcome_of_all_resolved (s : State) (rs : List Ret)
    (hall : ∀ r ∈ rs, isResolved (callerOutcome s r) = true) :
    preloadOutcome s rs = some (PreloadOutcome.ok (resolvedImgs s rs)) ∧
    (resolvedImgs s rs).length = rs.length := by
  constructor
  · unfold preloadOutcome
    have h1 : rs.any (fun r => isRejected (callerOutcome s r)) = false := by
      rw [List.any_eq_false]
      intro r hr
      simp [isRejected_eq_false _ (hall r hr)]
    have h2 : rs.all (fun r => isResolved (callerOutcome s r)) = true := by
      rw [List.all_eq_true]
      exact hall
    rw [h1, h2]
    simp
  · unfold resolvedImgs
    induction rs with
    | nil => rfl
    | cons r rs ih =>
      have h1 := hall r (List.mem_cons_self r rs)
      rw [List.filterMap_cons]
      cases hco : callerOutcome s r with
      | none =>
        rw [hco] at h1
        cases h1
      | some oc =>
        cases oc with
        | resolved img =>
          simp only [List.length_cons]
          rw [ih (fun r hr => hall r (List.mem_cons_of_mem _ hr))]
        | invalidKey =>
          rw [hco] at h1
          cases h1
        | loadFailed =>
          rw [hco] at h1
          cases h1
        | timedOut =>
          rw [hco] at h1
          cases h1

theorem preloadOutcome_of_rejected (s : State) (rs : List Ret) (r : Ret)
    (hmem : r ∈ rs) (hrej : isRejected (callerOutcome s r) = true) :
    preloadOutcome s rs = some PreloadOutcome.failed := by
  unfold preloadOutcome
  have h1 : rs.any (fun r => isRejected (callerOutcome s r)) = true :=
    List.any_eq_true.mpr ⟨r, hmem, hrej⟩
  rw [h1]
  simp

end AssetLoader

end Spec2Proof

namespace Spec2Proof

/-! ### The claims -/

/-- C7: a call whose argument is null (`none`), the empty string, or a
string whose lowercased suffix after the last dot is not in the
respective supported-format list, leaves the whole state unchanged except
for recording the immediately-rejected return: in particular neither
loader assigns `img.src` (no fetch) and neither touches its cache or
pending map. -/
theorem c7_invalid_key_rejection :
    (∀ (cfg : AssetLoader.Config) (s : AssetLoader.State)
       (url : Option String),
      (url = none ∨ url = some "" ∨ (∃ str, url = some str ∧
        cfg.supportedFormats.contains (jsExtension str) = false)) →
      AssetLoader.loadSprite cfg s url =
        { s with rets := s.rets ++ [AssetLoader.Ret.invalid] })
  ∧ (∀ (s : SpriteManager.State) (cacheOpt : Bool) (now : Nat)
       (url : Option String),
      (url = none ∨ url = some "" ∨ (∃ str, url = some str ∧
        SpriteManager.SUPPORTED_FORMATS.contains (jsExtension str) = false)) →
      SpriteManager.loadSprite s cacheOpt now url =
        { s with rets := s.rets ++ [SpriteManager.Ret.invalid] }) := by
  constructor
  · intro cfg s url h
    apply AssetLoader.loadSprite_invalid
    rcases h with h | h | ⟨str, hstr, hc⟩
    · rw [h]
      rfl
    · rw [h]
      rfl
    · rw [hstr]
      unfold AssetLoader.validateAssetUrl
      dsimp only
      by_cases he : str = ""
      · rw [if_pos he]
      · rw [if_neg he]
        exact hc
  · intro s cacheOpt now url h
    apply SpriteManager.smLoadSprite_invalid
    rcases h with h | h | ⟨str, hstr, hc⟩
    · rw [h]
      rfl
    · rw [h]
      rfl
    · rw [hstr]
      unfold SpriteManager.validateUrl
      dsimp only
      by_cases he : str = ""
      · rw [if_pos he]
      · rw [if_neg he]
        exact hc

/-- Witness for C7 at the concrete key `"x.unsupportedext"`. -/
theorem c7_witness :
    AssetLoader.loadSprite AssetLoader.defaultConfig AssetLoader.State.init
        (some "x.unsupportedext") =
      { AssetLoader.State.init with
        rets := AssetLoader.State.init.rets ++ [AssetLoader.Ret.invalid] }
  ∧ SpriteManager.loadSprite SpriteManager.State.init true 0
        (some "x.unsupportedext") =
      { SpriteManager.State.init with
        rets := SpriteManager.State.init.rets ++ [SpriteManager.Ret.invalid] } :=
  ⟨c7_invalid_key_rejection.1 AssetLoader.defaultConfig AssetLoader.State.init
      (some "x.unsupportedext")
      (Or.inr (Or.inr ⟨"x.unsupportedext", rfl, by decide⟩)),
   c7_invalid_key_rejection.2 SpriteManager.State.init true 0
      (some "x.unsupportedext")
      (Or.inr (Or.inr ⟨"x.unsupportedext", rfl, by decide⟩))⟩

/-- C10: for a non-empty dot-free key both validators take the whole
lowercased string as the extension, so the key is accepted exactly when it
equals a supported format name, and an accepted dot-free key (on a fresh
instance) does assign `img.src`, i.e. triggers a fetch. -/
theorem c10_dotfree_keys :
    ∀ (cfg : AssetLoader.Config) (s : String), s ≠ "" → '.' ∉ s.data →
      (AssetLoader.validateAssetUrl cfg (some s) =
        cfg.supportedFormats.contains (jsLower s))
    ∧ (SpriteManager.validateUrl (some s) =
        SpriteManager.SUPPORTED_FORMATS.contains (jsLower s))
    ∧ (AssetLoader.validateAssetUrl cfg (some s) = true →
        (AssetLoader.loadSprite cfg AssetLoader.State.init (some s)).fetches
          = [s])
    ∧ (SpriteManager.validateUrl (some s) = true →
        (SpriteManager.loadSprite SpriteManager.State.init true 0
          (some s)).fetches = [s]) := by
  intro cfg s hne hdot
  have hext := jsExtension_no_dot s hdot
  refine ⟨?_, ?_, ?_, ?_⟩
  · unfold AssetLoader.validateAssetUrl
    dsimp only
    rw [if_neg hne, hext]
  · unfold SpriteManager.validateUrl
    dsimp only
    rw [if_neg hne, hext]
  · intro hv
    rw [AssetLoader.loadSprite_miss cfg AssetLoader.State.init s hv rfl rfl]
    simp [AssetLoader.State.init]
  · intro hv
    rw [SpriteManager.smLoadSprite_miss SpriteManager.State.init true 0 s hv
      rfl rfl]
    simp [SpriteManager.State.init]

/-- Witness for C10 at the concrete dot-free key `"png"`. -/
theorem c10_witness :
    (AssetLoader.validateAssetUrl AssetLoader.defaultConfig (some "png") =
      AssetLoader.defaultConfig.supportedFormats.contains (jsLower "png"))
  ∧ (SpriteManager.validateUrl (some "png") =
      SpriteManager.SUPPORTED_FORMATS.contains (jsLower "png"))
  ∧ (AssetLoader.validateAssetUrl AssetLoader.defaultConfig (some "png") = true →
      (AssetLoader.loadSprite AssetLoader.defaultConfig AssetLoader.State.init
        (some "png")).fetches = ["png"])
  ∧ (SpriteManager.validateUrl (some "png") = true →
      (SpriteManager.loadSprite SpriteManager.State.init true 0
        (some "png")).fetches = ["png"]) :=
  c10_dotfree_keys AssetLoader.defaultConfig "png" (by decide) (by decide)

/-- C9: `getSprite` delegates unconditionally to `loadSprite`, so it makes
the same state transition and every continuation of the run from the two
resulting states agrees. -/
theorem c9_getSprite_equals_loadSprite :
    ∀ (cfg : AssetLoader.Config) (s : AssetLoader.State)
      (url : Option String) (tr : List AssetLoader.Ev),
      AssetLoader.getSprite cfg s url = AssetLoader.loadSprite cfg s url
    ∧ AssetLoader.run cfg (AssetLoader.getSprite cfg s url) tr =
        AssetLoader.run cfg (AssetLoader.loadSprite cfg s url) tr :=
  fun _ _ _ _ => ⟨rfl, rfl⟩

/-- C6 counterexample: in `AssetLoader`, a cache hit returns the stored
handle but changes nothing at all in the instance state — the cache record
is a bare handle with no `lastUsedAt` field, so the claimed recency
refresh does not exist.  (`cachedState` holds `"a.png"` with handle 7.) -/
theorem c6_counterexample :
    AssetLoader.cachedState.cache = [("a.png", 7)]
  ∧ AssetLoader.step AssetLoader.defaultConfig AssetLoader.cachedState
      (AssetLoader.Ev.call (some "a.png")) =
    { AssetLoader.cachedState with
      rets := AssetLoader.cachedState.rets ++ [AssetLoader.Ret.hit 7] } := by
  decide

/-- C6 amended: on a cache hit neither loader fetches and both return the
stored handle; `SpriteManager` additionally refreshes the record's
`lastUsed` to the current time, while `AssetLoader` keeps no timestamps
and leaves its state unchanged apart from the returned value. -/
theorem c6_amended_cache_hit :
    (∀ (cfg : AssetLoader.Config) (s : AssetLoader.State) (u : String)
       (img : Nat),
      AssetLoader.validateAssetUrl cfg (some u) = true →
      jget s.cache u = some img →
      AssetLoader.loadSprite cfg s (some u) =
        { s with rets := s.rets ++ [AssetLoader.Ret.hit img] })
  ∧ (∀ (s : SpriteManager.State) (now : Nat) (u : String)
       (sp : SpriteManager.Sprite),
      SpriteManager.validateUrl (some u) = true →
      jget s.spriteCache u = some sp →
      SpriteManager.loadSprite s true now (some u) =
        { s with
          spriteCache := jset s.spriteCache u { sp with lastUsed := now }
          rets := s.rets ++
            [SpriteManager.Ret.hit { sp with lastUsed := now }] }) :=
  ⟨fun cfg s u img hv hc => AssetLoader.loadSprite_hit cfg s u img hv hc,
   fun s now u sp hv hc => SpriteManager.smLoadSprite_hit s now u sp hv hc⟩

/-- Witness for C6 on concrete one-record caches. -/
theorem c6_witness :
    AssetLoader.loadSprite AssetLoader.defaultConfig
        ⟨[("a.png", 7)], [], [], [], []⟩ (some "a.png") =
      { (⟨[("a.png", 7)], [], [], [], []⟩ : AssetLoader.State) with
        rets := ([] : List AssetLoader.Ret) ++ [AssetLoader.Ret.hit 7] }
  ∧ SpriteManager.loadSprite
        ⟨[("a.png", ⟨7, "a.png", 1⟩)], [], [], [], []⟩ true 5 (some "a.png") =
      { (⟨[("a.png", ⟨7, "a.png", 1⟩)], [], [], [], []⟩ :
          SpriteManager.State) with
        spriteCache := jset [("a.png", ⟨7, "a.png", 1⟩)] "a.png" ⟨7, "a.png", 5⟩
        rets := ([] : List SpriteManager.Ret) ++
          [SpriteManager.Ret.hit ⟨7, "a.png", 5⟩] } :=
  ⟨c6_amended_cache_hit.1 AssetLoader.defaultConfig
      ⟨[("a.png", 7)], [], [], [], []⟩ "a.png" 7 (by decide) (by decide),
   c6_amended_cache_hit.2 ⟨[("a.png", ⟨7, "a.png", 1⟩)], [], [], [], []⟩ 5
      "a.png" ⟨7, "a.png", 1⟩ (by decide) (by decide)⟩

/-- C5: starting from a fresh instance, `N + 1` consecutive calls for the
same valid key assign `img.src` exactly once (one fetch), register exactly
one attempt, and every caller after the first is handed the single pending
load promise of attempt 0. -/
theorem c5_at_most_one_fetch :
    (∀ (cfg : AssetLoader.Config) (u : String) (N : Nat),
      AssetLoader.validateAssetUrl cfg (some u) = true →
      AssetLoader.run cfg AssetLoader.State.init
          (List.replicate (N + 1) (AssetLoader.Ev.call (some u))) =
        ⟨[], [(u, 0)], [⟨u, none, none⟩], [u],
          AssetLoader.Ret.raced 0 ::
            List.replicate N (AssetLoader.Ret.joined 0)⟩)
  ∧ (∀ (maxSize : Nat) (cacheOpt : Bool) (now : Nat) (u : String) (N : Nat),
      SpriteManager.validateUrl (some u) = true →
      SpriteManager.run maxSize SpriteManager.State.init
          (List.replicate (N + 1)
            (SpriteManager.Ev.call (some u) cacheOpt now)) =
        ⟨[], [(u, 0)], [⟨u, cacheOpt, none⟩], [u],
          SpriteManager.Ret.initiated 0 ::
            List.replicate N (SpriteManager.Ret.joined 0)⟩) := by
  constructor
  · intro cfg u N hv
    rw [List.replicate_succ, AssetLoader.run_cons]
    have hstep : AssetLoader.step cfg AssetLoader.State.init
        (AssetLoader.Ev.call (some u)) =
        ⟨[], [(u, 0)], [⟨u, none, none⟩], [u], [AssetLoader.Ret.raced 0]⟩ := by
      show AssetLoader.loadSprite cfg AssetLoader.State.init (some u) = _
      rw [AssetLoader.loadSprite_miss cfg AssetLoader.State.init u hv rfl rfl]
      simp [jset, jhas, AssetLoader.State.init]
    rw [hstep, AssetLoader.joins_run cfg u 0 N
      ⟨[], [(u, 0)], [⟨u, none, none⟩], [u], [AssetLoader.Ret.raced 0]⟩ hv rfl
      (by rw [jget_cons]; simp)]
    simp
  · intro maxSize cacheOpt now u N hv
    rw [List.replicate_succ, SpriteManager.smRun_cons]
    have hstep : SpriteManager.step maxSize SpriteManager.State.init
        (SpriteManager.Ev.call (some u) cacheOpt now) =
        ⟨[], [(u, 0)], [⟨u, cacheOpt, none⟩], [u],
          [SpriteManager.Ret.initiated 0]⟩ := by
      show SpriteManager.loadSprite SpriteManager.State.init cacheOpt now
        (some u) = _
      rw [SpriteManager.smLoadSprite_miss SpriteManager.State.init cacheOpt now
        u hv (by cases cacheOpt <;> rfl) rfl]
      simp [jset, jhas, SpriteManager.State.init]
    rw [hstep, SpriteManager.smJoins_run maxSize cacheOpt now u 0 N
      ⟨[], [(u, 0)], [⟨u, cacheOpt, none⟩], [u],
        [SpriteManager.Ret.initiated 0]⟩ hv rfl
      (by rw [jget_cons]; simp)]
    simp

/-- Witness for C5: three calls for `"a.png"`, one fetch, two joiners. -/
theorem c5_witness :
    AssetLoader.run AssetLoader.defaultConfig AssetLoader.State.init
        (List.replicate 3 (AssetLoader.Ev.call (some "a.png"))) =
      ⟨[], [("a.png", 0)], [⟨"a.png", none, none⟩], ["a.png"],
        AssetLoader.Ret.raced 0 ::
          List.replicate 2 (AssetLoader.Ret.joined 0)⟩
  ∧ SpriteManager.run 100 SpriteManager.State.init
        (List.replicate 3 (SpriteManager.Ev.call (some "a.png") true 0)) =
      ⟨[], [("a.png", 0)], [⟨"a.png", true, none⟩], ["a.png"],
        SpriteManager.Ret.initiated 0 ::
          List.replicate 2 (SpriteManager.Ret.joined 0)⟩ :=
  ⟨c5_at_most_one_fetch.1 AssetLoader.defaultConfig "a.png" 2 (by decide),
   c5_at_most_one_fetch.2 100 true 0 "a.png" 2 (by decide)⟩

end Spec2Proof

namespace Spec2Proof

/-- C1 counterexample: in `AssetLoader` (state `timeoutState`: the load of
`"a.png"` was begun and its timeout fired before the image settled) the
caller's raced future has rejected with the timeout error, and the cache
is still empty; but when the image load then succeeds, its `onload`
callback still inserts the handle into the cache and deletes the
`loading` entry — there is no stale-completion guard, contradicting the
claim that a late fetch success does not populate the cache map and does
not mutate the loading map. -/
theorem c1_counterexample :
    AssetLoader.callerOutcome AssetLoader.timeoutState
      (AssetLoader.Ret.raced 0) = some AssetLoader.Outcome.timedOut
  ∧ AssetLoader.timeoutState.rets = [AssetLoader.Ret.raced 0]
  ∧ AssetLoader.timeoutState.cache = []
  ∧ AssetLoader.timeoutState.loading = [("a.png", 0)]
  ∧ (AssetLoader.step AssetLoader.defaultConfig AssetLoader.timeoutState
      (AssetLoader.Ev.onload 0 7)).cache = [("a.png", 7)]
  ∧ (AssetLoader.step AssetLoader.defaultConfig AssetLoader.timeoutState
      (AssetLoader.Ev.onload 0 7)).loading = [] := by
  decide

/-- C1 amended: when the timeout of a pending attempt fires first, the
initiating caller's future rejects with the timeout error in both
implementations, and this outcome is stable under every later event.  In
`SpriteManager` the late image success is then a strict no-op (the promise
already settled, so the awaiting continuation never runs: no map is
touched).  In `AssetLoader`, however, the late `onload` still inserts the
image into the cache and deletes the `loading` entry for the url. -/
theorem c1_amended_timeout_precedence :
    (∀ (cfg : AssetLoader.Config) (s : AssetLoader.State) (a : Nat)
       (att : AssetLoader.Attempt) (tr : List AssetLoader.Ev),
      s.attempts[a]? = some att → att.raceSettled = none →
      AssetLoader.callerOutcome
          (AssetLoader.run cfg (AssetLoader.timer s a) tr)
          (AssetLoader.Ret.raced a) = some AssetLoader.Outcome.timedOut)
  ∧ (∀ (cfg : AssetLoader.Config) (s : AssetLoader.State) (a : Nat)
       (att : AssetLoader.Attempt) (img : Nat),
      s.attempts[a]? = some att → att.imgSettled = none →
      att.raceSettled = some AssetLoader.Outcome.timedOut →
      jhas s.cache att.url = false → s.cache.length < cfg.maxCacheSize →
      jget (AssetLoader.onload cfg s a img).cache att.url = some img
      ∧ (AssetLoader.onload cfg s a img).loading = jdel s.loading att.url)
  ∧ (∀ (maxSize : Nat) (s : SpriteManager.State) (a : Nat)
       (att : SpriteManager.Attempt) (tr : List SpriteManager.Ev),
      s.attempts[a]? = some att → att.settled = none →
      SpriteManager.callerOutcome
          (SpriteManager.run maxSize (SpriteManager.timer s a) tr)
          (SpriteManager.Ret.initiated a) =
        some SpriteManager.Outcome.timedOut)
  ∧ (∀ (maxSize : Nat) (s : SpriteManager.State) (a : Nat)
       (att : SpriteManager.Attempt) (img now : Nat),
      s.attempts[a]? = some att →
      att.settled = some SpriteManager.Outcome.timedOut →
      SpriteManager.onload maxSize s a img now = s) := by
  refine ⟨?_, ?_, ?_, ?_⟩
  · intro cfg s a att tr ha hrace
    obtain ⟨att', h3, h4⟩ := AssetLoader.race_persists_run cfg tr
      (AssetLoader.timer s a) a AssetLoader.Outcome.timedOut
      ⟨_, getElem?_modifyAt_self s.attempts a _ att ha, by simp [hrace]⟩
    simp only [AssetLoader.callerOutcome]
    rw [h3]
    simp [h4]
  · intro cfg s a att img ha himg hrace hnew hlen
    unfold AssetLoader.onload
    rw [ha]
    dsimp only
    rw [if_pos himg]
    constructor
    · dsimp only
      unfold AssetLoader.manageCacheSize
      rw [if_neg (by
        rw [length_jset_of_not_has s.cache att.url img hnew]
        omega)]
      exact jget_jset_self s.cache att.url img
    · rfl
  · intro maxSize s a att tr ha hset
    have h1 : ∃ att', (SpriteManager.timer s a).attempts[a]? = some att' ∧
        att'.settled = some SpriteManager.Outcome.timedOut := by
      unfold SpriteManager.timer
      rw [ha]
      dsimp only
      rw [if_pos hset]
      exact ⟨_, getElem?_modifyAt_self s.attempts a _ att ha, rfl⟩
    obtain ⟨att', h3, h4⟩ := SpriteManager.settled_persists_run maxSize tr
      (SpriteManager.timer s a) a SpriteManager.Outcome.timedOut h1
    simp only [SpriteManager.callerOutcome]
    rw [h3]
    simp [h4]
  · intro maxSize s a att img now ha hset
    unfold SpriteManager.onload
    rw [ha]
    dsimp only
    rw [if_neg (by rw [hset]; simp)]

/-- Witness for C1 on concrete one-attempt states. -/
theorem c1_witness :
    AssetLoader.callerOutcome
      (AssetLoader.run AssetLoader.defaultConfig
        (AssetLoader.timer
          ⟨[], [("a.png", 0)], [⟨"a.png", none, none⟩], ["a.png"],
            [AssetLoader.Ret.raced 0]⟩ 0)
        [AssetLoader.Ev.onload 0 7])
      (AssetLoader.Ret.raced 0) = some AssetLoader.Outcome.timedOut
  ∧ (jget (AssetLoader.onload AssetLoader.defaultConfig
        ⟨[], [("a.png", 0)],
          [⟨"a.png", none, some AssetLoader.Outcome.timedOut⟩], ["a.png"],
          [AssetLoader.Ret.raced 0]⟩ 0 7).cache "a.png" = some 7
      ∧ (AssetLoader.onload AssetLoader.defaultConfig
          ⟨[], [("a.png", 0)],
            [⟨"a.png", none, some AssetLoader.Outcome.timedOut⟩], ["a.png"],
            [AssetLoader.Ret.raced 0]⟩ 0 7).loading =
        jdel [("a.png", 0)] "a.png")
  ∧ SpriteManager.callerOutcome
      (SpriteManager.run 100
        (SpriteManager.timer
          ⟨[], [("a.png", 0)], [⟨"a.png", true, none⟩], ["a.png"],
            [SpriteManager.Ret.initiated 0]⟩ 0)
        [SpriteManager.Ev.onload 0 7 5])
      (SpriteManager.Ret.initiated 0) = some SpriteManager.Outcome.timedOut
  ∧ SpriteManager.onload 100
      ⟨[], [("a.png", 0)],
        [⟨"a.png", true, some SpriteManager.Outcome.timedOut⟩], ["a.png"],
        [SpriteManager.Ret.initiated 0]⟩ 0 7 5 =
      ⟨[], [("a.png", 0)],
        [⟨"a.png", true, some SpriteManager.Outcome.timedOut⟩], ["a.png"],
        [SpriteManager.Ret.initiated 0]⟩ :=
  ⟨c1_amended_timeout_precedence.1 AssetLoader.defaultConfig
      ⟨[], [("a.png", 0)], [⟨"a.png", none, none⟩], ["a.png"],
        [AssetLoader.Ret.raced 0]⟩ 0 ⟨"a.png", none, none⟩
      [AssetLoader.Ev.onload 0 7] (by decide) (by decide),
   c1_amended_timeout_precedence.2.1 AssetLoader.defaultConfig
      ⟨[], [("a.png", 0)],
        [⟨"a.png", none, some AssetLoader.Outcome.timedOut⟩], ["a.png"],
        [AssetLoader.Ret.raced 0]⟩ 0
      ⟨"a.png", none, some AssetLoader.Outcome.timedOut⟩ 7
      (by decide) (by decide) (by decide) (by decide) (by decide),
   c1_amended_timeout_precedence.2.2.1 100
      ⟨[], [("a.png", 0)], [⟨"a.png", true, none⟩], ["a.png"],
        [SpriteManager.Ret.initiated 0]⟩ 0 ⟨"a.png", true, none⟩
      [SpriteManager.Ev.onload 0 7 5] (by decide) (by decide),
   c1_amended_timeout_precedence.2.2.2 100
      ⟨[], [("a.png", 0)],
        [⟨"a.png", true, some SpriteManager.Outcome.timedOut⟩], ["a.png"],
        [SpriteManager.Ret.initiated 0]⟩ 0
      ⟨"a.png", true, some SpriteManager.Outcome.timedOut⟩ 7 5
      (by decide) (by decide)⟩

/-- C2 counterexample: the pending entry is not removed in the settlement
step.  In `AssetLoader` (`staleRetryState`), the caller's future settled
by timeout but `loading` still holds the key, so the retry call joined the
stale attempt and no second fetch happened.  In `SpriteManager`
(`failRetryState`), the attempt settled by `onerror` but
`#loadingPromises` still holds the key, so the retry call received the old
rejected promise and no second fetch happened. -/
theorem c2_counterexample :
    (AssetLoader.staleRetryState.loading = [("a.png", 0)]
     ∧ AssetLoader.staleRetryState.fetches = ["a.png"]
     ∧ AssetLoader.staleRetryState.rets =
       [AssetLoader.Ret.raced 0, AssetLoader.Ret.joined 0]
     ∧ AssetLoader.callerOutcome AssetLoader.staleRetryState
         (AssetLoader.Ret.raced 0) = some AssetLoader.Outcome.timedOut)
  ∧ (SpriteManager.failRetryState.loadingPromises = [("a.png", 0)]
     ∧ SpriteManager.failRetryState.fetches = ["a.png"]
     ∧ SpriteManager.failRetryState.rets =
       [SpriteManager.Ret.initiated 0, SpriteManager.Ret.joined 0]
     ∧ SpriteManager.callerOutcome SpriteManager.failRetryState
         (SpriteManager.Ret.initiated 0) =
       some SpriteManager.Outcome.loadFailed) := by
  decide

/-- C2 amended: the pending entry for a key is removed in the settlement
step on image success in both implementations, and on image failure in
`AssetLoader`; but the timeout settlement in `AssetLoader` and both the
failure and the timeout settlements in `SpriteManager` leave the pending
map untouched, and a later call for the key then joins the stale entry
(returning the registered promise) without starting a fresh fetch. -/
theorem c2_amended_pending_lifecycle :
    (∀ (cfg : AssetLoader.Config) (s : AssetLoader.State) (a : Nat)
       (att : AssetLoader.Attempt) (img : Nat),
      s.attempts[a]? = some att → att.imgSettled = none →
      (AssetLoader.onload cfg s a img).loading = jdel s.loading att.url)
  ∧ (∀ (s : AssetLoader.State) (a : Nat) (att : AssetLoader.Attempt),
      s.attempts[a]? = some att → att.imgSettled = none →
      (AssetLoader.onerror s a).loading = jdel s.loading att.url)
  ∧ (∀ (s : AssetLoader.State) (a : Nat),
      (AssetLoader.timer s a).loading = s.loading)
  ∧ (∀ (maxSize : Nat) (s : SpriteManager.State) (a : Nat)
       (att : SpriteManager.Attempt) (img now : Nat),
      s.attempts[a]? = some att → att.settled = none →
      (SpriteManager.onload maxSize s a img now).loadingPromises =
        jdel s.loadingPromises att.url)
  ∧ (∀ (s : SpriteManager.State) (a : Nat),
      (SpriteManager.onerror s a).loadingPromises = s.loadingPromises)
  ∧ (∀ (s : SpriteManager.State) (a : Nat),
      (SpriteManager.timer s a).loadingPromises = s.loadingPromises)
  ∧ (∀ (cfg : AssetLoader.Config) (s : AssetLoader.State) (u : String)
       (a : Nat),
      AssetLoader.validateAssetUrl cfg (some u) = true →
      jget s.cache u = none → jget s.loading u = some a →
      AssetLoader.loadSprite cfg s (some u) =
        { s with rets := s.rets ++ [AssetLoader.Ret.joined a] })
  ∧ (∀ (s : SpriteManager.State) (cacheOpt : Bool) (now : Nat) (u : String)
       (a : Nat),
      SpriteManager.validateUrl (some u) = true →
      (if cacheOpt then jget s.spriteCache u else none) = none →
      jget s.loadingPromises u = some a →
      SpriteManager.loadSprite s cacheOpt now (some u) =
        { s with rets := s.rets ++ [SpriteManager.Ret.joined a] }) := by
  refine ⟨?_, ?_, ?_, ?_, ?_, ?_, ?_, ?_⟩
  · intro cfg s a att img ha himg
    unfold AssetLoader.onload
    rw [ha]
    dsimp only
    rw [if_pos himg]
  · intro s a att ha himg
    unfold AssetLoader.onerror
    rw [ha]
    dsimp only
    rw [if_pos himg]
  · intro s a
    rfl
  · intro maxSize s a att img now ha hset
    unfold SpriteManager.onload
    rw [ha]
    dsimp only
    rw [if_pos hset]
  · intro s a
    unfold SpriteManager.onerror
    cases h' : s.attempts[a]? with
    | none => rfl
    | some att =>
      dsimp only
      by_cases hs : att.settled = none
      · rw [if_pos hs]
      · rw [if_neg hs]
  · intro s a
    unfold SpriteManager.timer
    cases h' : s.attempts[a]? with
    | none => rfl
    | some att =>
      dsimp only
      by_cases hs : att.settled = none
      · rw [if_pos hs]
      · rw [if_neg hs]
  · exact fun cfg s u a hv hc hl => AssetLoader.loadSprite_join cfg s u a hv hc hl
  · exact fun s cacheOpt now u a hv hc hl =>
      SpriteManager.smLoadSprite_join s cacheOpt now u a hv hc hl

/-- Witness for C2 on concrete one-attempt states. -/
theorem c2_witness :
    (AssetLoader.onload AssetLoader.defaultConfig
        ⟨[], [("a.png", 0)], [⟨"a.png", none, none⟩], ["a.png"],
          [AssetLoader.Ret.raced 0]⟩ 0 7).loading =
      jdel [("a.png", 0)] "a.png"
  ∧ (AssetLoader.onerror
        ⟨[], [("a.png", 0)], [⟨"a.png", none, none⟩], ["a.png"],
          [AssetLoader.Ret.raced 0]⟩ 0).loading =
      jdel [("a.png", 0)] "a.png"
  ∧ (AssetLoader.timer AssetLoader.timeoutState 0).loading =
      AssetLoader.timeoutState.loading
  ∧ (SpriteManager.onload 100
        ⟨[], [("a.png", 0)], [⟨"a.png", true, none⟩], ["a.png"],
          [SpriteManager.Ret.initiated 0]⟩ 0 7 5).loadingPromises =
      jdel [("a.png", 0)] "a.png"
  ∧ (SpriteManager.onerror SpriteManager.failRetryState 0).loadingPromises =
      SpriteManager.failRetryState.loadingPromises
  ∧ (SpriteManager.timer SpriteManager.failRetryState 0).loadingPromises =
      SpriteManager.failRetryState.loadingPromises
  ∧ AssetLoader.loadSprite AssetLoader.defaultConfig
        ⟨[], [("a.png", 0)], [⟨"a.png", none, none⟩], ["a.png"],
          [AssetLoader.Ret.raced 0]⟩ (some "a.png") =
      { (⟨[], [("a.png", 0)], [⟨"a.png", none, none⟩], ["a.png"],
          [AssetLoader.Ret.raced 0]⟩ : AssetLoader.State) with
        rets := [AssetLoader.Ret.raced 0] ++ [AssetLoader.Ret.joined 0] }
  ∧ SpriteManager.loadSprite
        ⟨[], [("a.png", 0)], [⟨"a.png", true, none⟩], ["a.png"],
          [SpriteManager.Ret.initiated 0]⟩ true 9 (some "a.png") =
      { (⟨[], [("a.png", 0)], [⟨"a.png", true, none⟩], ["a.png"],
          [SpriteManager.Ret.initiated 0]⟩ : SpriteManager.State) with
        rets := [SpriteManager.Ret.initiated 0] ++
          [SpriteManager.Ret.joined 0] } :=
  ⟨c2_amended_pending_lifecycle.1 AssetLoader.defaultConfig
      ⟨[], [("a.png", 0)], [⟨"a.png", none, none⟩], ["a.png"],
        [AssetLoader.Ret.raced 0]⟩ 0 ⟨"a.png", none, none⟩ 7
      (by decide) (by decide),
   c2_amended_pending_lifecycle.2.1
      ⟨[], [("a.png", 0)], [⟨"a.png", none, none⟩], ["a.png"],
        [AssetLoader.Ret.raced 0]⟩ 0 ⟨"a.png", none, none⟩
      (by decide) (by decide),
   c2_amended_pending_lifecycle.2.2.1 AssetLoader.timeoutState 0,
   c2_amended_pending_lifecycle.2.2.2.1 100
      ⟨[], [("a.png", 0)], [⟨"a.png", true, none⟩], ["a.png"],
        [SpriteManager.Ret.initiated 0]⟩ 0 ⟨"a.png", true, none⟩ 7 5
      (by decide) (by decide),
   c2_amended_pending_lifecycle.2.2.2.2.1 SpriteManager.failRetryState 0,
   c2_amended_pending_lifecycle.2.2.2.2.2.1 SpriteManager.failRetryState 0,
   c2_amended_pending_lifecycle.2.2.2.2.2.2.1 AssetLoader.defaultConfig
      ⟨[], [("a.png", 0)], [⟨"a.png", none, none⟩], ["a.png"],
        [AssetLoader.Ret.raced 0]⟩ "a.png" 0
      (by decide) (by decide) (by decide),
   c2_amended_pending_lifecycle.2.2.2.2.2.2.2
      ⟨[], [("a.png", 0)], [⟨"a.png", true, none⟩], ["a.png"],
        [SpriteManager.Ret.initiated 0]⟩ true 9 "a.png" 0
      (by decide) (by decide) (by decide)⟩

end Spec2Proof

namespace Spec2Proof

/-- C3 counterexample: with `maxCacheSize = 2`, `AssetLoader` loads
`"a.png"` and `"b.png"`, then serves `"a.png"` from the cache (so
`"a.png"` is more recently used than `"b.png"`), then loads `"c.png"`.
The eviction run at the insertion of `"c.png"` removes `"a.png"` — the
first-inserted key — although under any use-recency timestamping the
least recently used record is `"b.png"`: `AssetLoader` records carry no
`lastUsedAt` at all and `_manageCacheSize` always deletes the
first-inserted key. -/
theorem c3_counterexample :
    AssetLoader.evictionState.cache = [("b.png", 20), ("c.png", 30)]
  ∧ AssetLoader.evictionState.rets =
      [AssetLoader.Ret.raced 0, AssetLoader.Ret.raced 1,
       AssetLoader.Ret.hit 10, AssetLoader.Ret.raced 2] := by
  decide

/-- C3 amended: both caches respect the size bound (`AssetLoader` after
`set` then `_manageCacheSize`, `SpriteManager` through `#addToCache` when
`maxSize` is at least 1, as the constructor guarantees).  The eviction
choice differs: `SpriteManager` removes a record carrying the smallest
`lastUsed` among the records present (the first such in insertion order),
while `AssetLoader` removes the first-inserted key regardless of use. -/
theorem c3_amended_eviction :
    (∀ (maxSize : Nat) (cache : List (String × Nat)) (u : String) (img : Nat),
      cache.length ≤ maxSize →
      (AssetLoader.manageCacheSize maxSize (jset cache u img)).length ≤
        maxSize)
  ∧ (∀ (maxSize : Nat) (p : String × Nat) (rest : List (String × Nat)),
      maxSize < (p :: rest).length →
      AssetLoader.manageCacheSize maxSize (p :: rest) = jdel (p :: rest) p.1)
  ∧ (∀ (maxSize : Nat) (cache : List (String × SpriteManager.Sprite))
       (u : String) (sp : SpriteManager.Sprite),
      1 ≤ maxSize → cache.length ≤ maxSize →
      (SpriteManager.addToCache maxSize cache u sp).length ≤ maxSize)
  ∧ (∀ (cache : List (String × SpriteManager.Sprite)) (k : String),
      SpriteManager.findOldest cache = some k →
      ∃ sp, (k, sp) ∈ cache ∧
        ∀ q ∈ cache, sp.lastUsed ≤ q.2.lastUsed) :=
  ⟨fun maxSize cache u img h =>
      AssetLoader.manageCacheSize_bound maxSize cache u img h,
   fun maxSize p rest h =>
      AssetLoader.manageCacheSize_evicts_first maxSize p rest h,
   fun maxSize cache u sp hmax h =>
      SpriteManager.addToCache_bound maxSize cache u sp hmax h,
   fun cache k h => SpriteManager.findOldest_spec cache k h⟩

/-- Witness for C3 on concrete caches of capacity 1 and 2. -/
theorem c3_witness :
    (AssetLoader.manageCacheSize 1
      (jset [("a.png", 1)] "b.png" 2)).length ≤ 1
  ∧ AssetLoader.manageCacheSize 1 [("a.png", 1), ("b.png", 2)] =
      jdel [("a.png", 1), ("b.png", 2)] ("a.png", 1).1
  ∧ (SpriteManager.addToCache 1 [("a.png", ⟨1, "a.png", 3⟩)] "b.png"
      ⟨2, "b.png", 4⟩).length ≤ 1
  ∧ (∃ sp, ("b.png", sp) ∈
        [("a.png", (⟨1, "a.png", 5⟩ : SpriteManager.Sprite)),
         ("b.png", ⟨2, "b.png", 3⟩)] ∧
      ∀ q ∈ [("a.png", (⟨1, "a.png", 5⟩ : SpriteManager.Sprite)),
         ("b.png", ⟨2, "b.png", 3⟩)], sp.lastUsed ≤ q.2.lastUsed) :=
  ⟨c3_amended_eviction.1 1 [("a.png", 1)] "b.png" 2 (by decide),
   c3_amended_eviction.2.1 1 ("a.png", 1) [("b.png", 2)] (by decide),
   c3_amended_eviction.2.2.1 1 [("a.png", ⟨1, "a.png", 3⟩)] "b.png"
      ⟨2, "b.png", 4⟩ (by decide) (by decide),
   c3_amended_eviction.2.2.2
      [("a.png", ⟨1, "a.png", 5⟩), ("b.png", ⟨2, "b.png", 3⟩)] "b.png"
      (by decide)⟩

/-- C4 counterexample: `preloadSprites(["x.png", "b.bad"])` — the load of
`"x.png"` succeeds (its caller's future resolves with the handle), yet the
aggregate future settles as the single aggregate failure, and no
succeeded/failed partition exists anywhere in the result: the claim that
preload never rejects as a whole is false. -/
theorem c4_counterexample :
    AssetLoader.preloadFailState.rets =
      [AssetLoader.Ret.raced 0, AssetLoader.Ret.invalid]
  ∧ AssetLoader.callerOutcome AssetLoader.preloadFailState
      (AssetLoader.Ret.raced 0) = some (AssetLoader.Outcome.resolved 5)
  ∧ AssetLoader.preloadOutcome AssetLoader.preloadFailState
      AssetLoader.preloadFailState.rets =
    some AssetLoader.PreloadOutcome.failed := by
  decide

/-- C4 amended: `preloadSprites` runs `loadSprite` once per input key (one
returned future per key, in input order); when every per-key future
resolves, the aggregate future resolves with the list of images in input
order (one per key); when any per-key future rejects, the aggregate future
rejects with the single aggregate error — there is no
succeeded/failed partition.  The final conjunct shows a concrete
all-success run resolving to the handles in input order. -/
theorem c4_amended_preload :
    (∀ (cfg : AssetLoader.Config) (urls : List String)
       (s : AssetLoader.State),
      (AssetLoader.preloadSprites cfg s urls).rets.length =
        s.rets.length + urls.length)
  ∧ (∀ (s : AssetLoader.State) (rs : List AssetLoader.Ret),
      (∀ r ∈ rs, AssetLoader.isResolved (AssetLoader.callerOutcome s r) =
        true) →
      AssetLoader.preloadOutcome s rs =
        some (AssetLoader.PreloadOutcome.ok (AssetLoader.resolvedImgs s rs))
      ∧ (AssetLoader.resolvedImgs s rs).length = rs.length)
  ∧ (∀ (s : AssetLoader.State) (rs : List AssetLoader.Ret)
       (r : AssetLoader.Ret),
      r ∈ rs →
      AssetLoader.isRejected (AssetLoader.callerOutcome s r) = true →
      AssetLoader.preloadOutcome s rs =
        some AssetLoader.PreloadOutcome.failed)
  ∧ AssetLoader.preloadOutcome AssetLoader.preloadOkState
      AssetLoader.preloadOkState.rets =
    some (AssetLoader.PreloadOutcome.ok [5, 6]) := by
  refine ⟨?_, ?_, ?_, ?_⟩
  · exact fun cfg urls s => AssetLoader.preloadSprites_rets_length cfg urls s
  · exact fun s rs hall => AssetLoader.preloadOutcome_of_all_resolved s rs hall
  · exact fun s rs r hmem hrej =>
      AssetLoader.preloadOutcome_of_rejected s rs r hmem hrej
  · decide

/-- Witness for C4 on the concrete two-key scenarios. -/
theorem c4_witness :
    (AssetLoader.preloadSprites AssetLoader.defaultConfig
      AssetLoader.State.init ["x.png", "b.bad"]).rets.length = 0 + 2
  ∧ (AssetLoader.preloadOutcome AssetLoader.preloadOkState
        [AssetLoader.Ret.raced 0, AssetLoader.Ret.raced 1] =
      some (AssetLoader.PreloadOutcome.ok (AssetLoader.resolvedImgs
        AssetLoader.preloadOkState
        [AssetLoader.Ret.raced 0, AssetLoader.Ret.raced 1]))
     ∧ (AssetLoader.resolvedImgs AssetLoader.preloadOkState
        [AssetLoader.Ret.raced 0, AssetLoader.Ret.raced 1]).length = 2)
  ∧ AssetLoader.preloadOutcome AssetLoader.preloadFailState
      [AssetLoader.Ret.raced 0, AssetLoader.Ret.invalid] =
    some AssetLoader.PreloadOutcome.failed :=
  ⟨c4_amended_preload.1 AssetLoader.defaultConfig ["x.png", "b.bad"]
      AssetLoader.State.init,
   c4_amended_preload.2.1 AssetLoader.preloadOkState
      [AssetLoader.Ret.raced 0, AssetLoader.Ret.raced 1] (by decide),
   c4_amended_preload.2.2.1 AssetLoader.preloadFailState
      [AssetLoader.Ret.raced 0, AssetLoader.Ret.invalid]
      AssetLoader.Ret.invalid (by decide) (by decide)⟩

end Spec2Proof

namespace Spec2Proof

/-- C8: a `SpriteManager.loadSprite` call with `options.cache === false`
never reads the sprite cache — even when the url is already cached, it
joins the pending load or starts a new one, leaving the cache map
untouched — and a successful settlement of an attempt initiated with
caching disabled skips `#addToCache`, so the sprite cache is unchanged by
the success step as well. -/
theorem c8_cache_bypass :
    (∀ (s : SpriteManager.State) (now : Nat) (u : String),
      SpriteManager.validateUrl (some u) = true →
      (SpriteManager.loadSprite s false now (some u)).spriteCache =
        s.spriteCache
      ∧ (∃ a, (SpriteManager.loadSprite s false now (some u)).rets =
            s.rets ++ [SpriteManager.Ret.joined a]
          ∨ (SpriteManager.loadSprite s false now (some u)).rets =
            s.rets ++ [SpriteManager.Ret.initiated a]))
  ∧ (∀ (maxSize : Nat) (s : SpriteManager.State) (a : Nat)
       (att : SpriteManager.Attempt) (img now : Nat),
      s.attempts[a]? = some att → att.cacheOpt = false →
      (SpriteManager.onload maxSize s a img now).spriteCache =
        s.spriteCache) := by
  constructor
  · intro s now u hv
    cases hl : jget s.loadingPromises u with
    | some a =>
      rw [SpriteManager.smLoadSprite_join s false now u a hv rfl hl]
      exact ⟨rfl, ⟨a, Or.inl rfl⟩⟩
    | none =>
      rw [SpriteManager.smLoadSprite_miss s false now u hv rfl hl]
      exact ⟨rfl, ⟨s.attempts.length, Or.inr rfl⟩⟩
  · intro maxSize s a att img now ha hcopt
    unfold SpriteManager.onload
    rw [ha]
    dsimp only
    by_cases hs : att.settled = none
    · rw [if_pos hs]
      dsimp only
      rw [hcopt]
      simp
    · rw [if_neg hs]

/-- Witness for C8: a cache-bypassing call on a manager that already has
`"a.png"` cached, and a cache-disabled success settlement. -/
theorem c8_witness :
    ((SpriteManager.loadSprite
        ⟨[("a.png", ⟨7, "a.png", 1⟩)], [], [], [], []⟩ false 5
        (some "a.png")).spriteCache = [("a.png", ⟨7, "a.png", 1⟩)]
      ∧ (∃ a, (SpriteManager.loadSprite
            ⟨[("a.png", ⟨7, "a.png", 1⟩)], [], [], [], []⟩ false 5
            (some "a.png")).rets =
            ([] : List SpriteManager.Ret) ++ [SpriteManager.Ret.joined a]
          ∨ (SpriteManager.loadSprite
            ⟨[("a.png", ⟨7, "a.png", 1⟩)], [], [], [], []⟩ false 5
            (some "a.png")).rets =
            ([] : List SpriteManager.Ret) ++
              [SpriteManager.Ret.initiated a]))
  ∧ (SpriteManager.onload 100
      ⟨[("a.png", ⟨7, "a.png", 1⟩)], [("b.png", 0)],
        [⟨"b.png", false, none⟩], ["b.png"],
        [SpriteManager.Ret.initiated 0]⟩ 0 9 6).spriteCache =
    [("a.png", ⟨7, "a.png", 1⟩)] :=
  ⟨c8_cache_bypass.1 ⟨[("a.png", ⟨7, "a.png", 1⟩)], [], [], [], []⟩ 5
      "a.png" (by decide),
   c8_cache_bypass.2 100
      ⟨[("a.png", ⟨7, "a.png", 1⟩)], [("b.png", 0)],
        [⟨"b.png", false, none⟩], ["b.png"],
        [SpriteManager.Ret.initiated 0]⟩ 0 ⟨"b.png", false, none⟩ 9 6
      (by decide) (by decide)⟩

end Spec2Proof
